import Mathlib

/-!
Verification of the dubstub stub-generation core (`src/dubstub/generate/stubber.py`)
against its natural-language specification.

The Python code is shallowly embedded: the structural tree (`Node`, `Tag`), the AST
fragment the stubber consumes, the per-construct stubbing functions and the two-pass
driver `stubgen_single_file_src` are translated into executable Lean definitions.

Parts of the repository that are not present under `src/` (the `Source` wrapper and
the pattern/config modules of `dubstub.config`) are modelled from the specification;
each such definition carries a doc comment starting with `Modelled from the spec:`.

Conventions of the embedding:
- Python sets of tags become lists queried by membership (insertion order is
  irrelevant to every decision the code makes).
- Python in-place mutation of a parent node becomes functional update: every
  `stub_*` method takes the parent node and returns the updated parent.
- The diagnostic `Logger` only prints and never influences the output tree, so it is
  omitted.
- Python 3.12 type-parameter syntax (`type_params`, `unparse_type_params`) is outside
  the modelled fragment: the embedding corresponds to a feature version below 3.12,
  where `generics` is always the empty string.
- String primitives (`split`, `strip`, `startswith`, `in`, `join`) are implemented
  on the character list underlying `String`, so every definition evaluates inside
  the kernel.
-/

namespace Dubstub

/-! ## String primitives (Python `str` methods used by the stubber) -/

/-- Auxiliary for `pySplit`: scan with explicit fuel (one unit per consumed
character; the entry point supplies the list length, which is always enough for
a non-empty separator). -/
def splitAux (sep : List Char) : Nat → List Char → List Char → List (List Char)
  | _, acc, [] => [acc.reverse]
  | 0, acc, l => [acc.reverse ++ l]
  | fuel + 1, acc, c :: rest =>
      if sep.isPrefixOf (c :: rest) then
        acc.reverse :: splitAux sep fuel [] ((c :: rest).drop sep.length)
      else splitAux sep fuel (c :: acc) rest

/-- Python `s.split(sep)` for a non-empty separator: split on every
non-overlapping occurrence, keeping empty chunks. -/
def pySplit (s sep : String) : List String :=
  if sep.data.isEmpty then [s]
  else (splitAux sep.data s.data.length [] s.data).map (fun l => ⟨l⟩)

/-- Python `s.rstrip()`. -/
def pyRstrip (s : String) : String :=
  ⟨(s.data.reverse.dropWhile Char.isWhitespace).reverse⟩

/-- Python `s.strip()`. -/
def pyStrip (s : String) : String :=
  ⟨((s.data.dropWhile Char.isWhitespace).reverse.dropWhile Char.isWhitespace).reverse⟩

def pyStartsWith (s pre : String) : Bool := pre.data.isPrefixOf s.data

def pyDrop (s : String) (n : Nat) : String := ⟨s.data.drop n⟩

/-- Python `c in s` for a single character. -/
def pyContainsChar (s : String) (c : Char) : Bool := s.data.contains c

def pyIsEmpty (s : String) : Bool := s.data.isEmpty

def strJoinList : List String → String
  | [] => ""
  | s :: rest => s ++ strJoinList rest

/-- Python `sep.join(parts)`. -/
def pyJoin (sep : String) : List String → String
  | [] => ""
  | [s] => s
  | s :: rest => s ++ sep ++ pyJoin sep rest

/-- Decimal rendering of a natural number (fuel-based digit recursion). -/
def natToStrAux : Nat → Nat → String
  | _, 0 => "0"
  | 0, _ => ""
  | fuel + 1, n =>
      if n < 10 then ⟨[Char.ofNat (48 + n)]⟩
      else natToStrAux fuel (n / 10) ++ (⟨[Char.ofNat (48 + n % 10)]⟩ : String)

def natToStr (n : Nat) : String := natToStrAux (n + 1) n

/-- Decimal rendering of an integer, as `str`/`ast.unparse` produce it. -/
def intToStr (i : Int) : String :=
  if i < 0 then "-" ++ natToStr i.natAbs else natToStr i.natAbs

end Dubstub

namespace Dubstub

/-- Tags of tree nodes, mirroring `Tag` from `dubstub.config.match_ctx`
(the tag vocabulary listed in spec section 3 and used throughout `stubber.py`). -/
inductive Tag where
  | MODULE
  | CLASS
  | FUNCTION
  | VARIABLE
  | IMPORT
  | IF
  | DOCSTRING
  | SPACER
  | ELLIPSIS
  | TYPE_ALIAS
  | ANNOTATED
  | ASSIGNED
  deriving DecidableEq, Repr

/-- Modelled from the spec: the name of a tag as seen by the predicate language
(spec section 4.2 matches regexes against tag names such as "class", "if"). -/
def tagName : Tag → String
  | Tag.MODULE => "module"
  | Tag.CLASS => "class"
  | Tag.FUNCTION => "function"
  | Tag.VARIABLE => "variable"
  | Tag.IMPORT => "import"
  | Tag.IF => "if"
  | Tag.DOCSTRING => "docstring"
  | Tag.SPACER => "spacer"
  | Tag.ELLIPSIS => "ellipsis"
  | Tag.TYPE_ALIAS => "type_alias"
  | Tag.ANNOTATED => "annotated"
  | Tag.ASSIGNED => "assigned"

/-- One output unit of the structural tree, mirroring `Node` in `stubber.py`:
ordered text lines, ordered owned children, and a set of tags (modelled as a
list queried by membership). -/
inductive Node where
  | mk (lines : List String) (children : List Node) (tags : List Tag)
  deriving Repr

def Node.lines : Node → List String
  | Node.mk l _ _ => l

def Node.children : Node → List Node
  | Node.mk _ c _ => c

def Node.tags : Node → List Tag
  | Node.mk _ _ t => t

/-- Appending a fully-built child to a parent; the functional counterpart of the
mutation performed by `Node.add_child` / `parent.children.append`. -/
def Node.pushChild (n : Node) (c : Node) : Node :=
  Node.mk n.lines (n.children ++ [c]) n.tags

theorem Node.children_pushChild (n c : Node) :
    (n.pushChild c).children = n.children ++ [c] := by
  cases n
  rfl

theorem Node.tags_pushChild (n c : Node) : (n.pushChild c).tags = n.tags := by
  cases n
  rfl

/-- The blank spacer node appended after every class and function:
`parent.add_child(Tag.SPACER).add_line("")`. -/
def spacerNode : Node := Node.mk [""] [] [Tag.SPACER]

/-- The synthetic ellipsis body line added by `check_body_ellipsis`:
`this.add_child(Tag.ELLIPSIS).add_line("...")`. -/
def ellipsisNode : Node := Node.mk ["..."] [] [Tag.ELLIPSIS]

/-! ## Renderer (`Stubber.output`) -/

/-- `"    " * indent`: the line prefix used by `collect_lines`. -/
def indentPrefix (indent : Nat) : String :=
  strJoinList (List.replicate indent ("    "))

/-- `Tag.SPACER in node.tags`, the condition of the trailing-spacer removal loop
in `collect_lines`. -/
def isSpacerNode (c : Node) : Bool := decide (Tag.SPACER ∈ c.tags)

/-- The `children.pop()` loop of `collect_lines` in list form: remove the
(maximal) trailing run of spacer-tagged children before recursing into a block. -/
def dropTrailingSpacers (cs : List Node) : List Node :=
  (cs.reverse.dropWhile isSpacerNode).reverse

mutual

/-- `collect_lines(node, indent)` from `Stubber.output`: flatten one node into
lines, right-trimming each prefixed line, dropping trailing spacers before
recursing, and indenting children one level deeper unless the node is tagged
MODULE. -/
def collectLines : Node → Nat → List String
  | Node.mk lines children tags, indent =>
      lines.map (fun l => pyRstrip (indentPrefix indent ++ l)) ++
        collectChildren children (if Tag.MODULE ∈ tags then indent else indent + 1)

/-- Walking the child list after the trailing-spacer removal of `collect_lines`:
the `while children and Tag.SPACER in children[-1].tags: children.pop()` loop
removes exactly the maximal trailing spacer run, so the walk over the remaining
prefix is the walk that stops as soon as only spacer nodes remain.
`collectChildren_dropTrailingSpacers` below proves this formulation equal to
first applying `dropTrailingSpacers`. -/
def collectChildren : List Node → Nat → List String
  | [], _ => []
  | c :: rest, indent =>
      if (c :: rest).all isSpacerNode then []
      else collectLines c indent ++ collectChildren rest indent

end

theorem collectChildren_all_spacers (cs : List Node) (indent : Nat)
    (h : cs.all isSpacerNode = true) : collectChildren cs indent = [] := by
  cases cs with
  | nil => rfl
  | cons c rest => simp only [collectChildren, h, if_pos]

theorem collectChildren_append_spacers (cs sp : List Node) (indent : Nat)
    (h : sp.all isSpacerNode = true) :
    collectChildren (cs ++ sp) indent = collectChildren cs indent := by
  induction cs with
  | nil =>
      simpa using collectChildren_all_spacers sp indent h
  | cons c rest ih =>
      by_cases hall : (c :: rest).all isSpacerNode = true
      · have hall2 : ((c :: rest) ++ sp).all isSpacerNode = true := by
          simp only [List.all_append, hall, h, Bool.and_self]
        rw [List.cons_append] at hall2 ⊢
        rw [collectChildren_all_spacers _ _ hall2,
          collectChildren_all_spacers _ _ hall]
      · have hall2 : ((c :: rest) ++ sp).all isSpacerNode = false := by
          rw [List.all_append]
          simp only [Bool.and_eq_true] at hall ⊢
          cases hcr : (c :: rest).all isSpacerNode with
          | false => simp
          | true => exact absurd hcr hall
        rw [List.cons_append] at hall2 ⊢
        simp only [collectChildren, hall2, Bool.false_eq_true, if_neg,
          eq_self_iff_true, hall]
        have := ih
        simp only [Bool.false_eq_true] at hall
        simp only [hall, if_neg, Bool.false_eq_true] at this ⊢
        rw [this]

theorem collectChildren_dropTrailingSpacers (cs : List Node) (indent : Nat) :
    collectChildren (dropTrailingSpacers cs) indent = collectChildren cs indent := by
  have hdecomp : cs = dropTrailingSpacers cs ++ (cs.reverse.takeWhile isSpacerNode).reverse := by
    have h := List.takeWhile_append_dropWhile (p := isSpacerNode) (l := cs.reverse)
    have h2 := congrArg List.reverse h
    simp only [List.reverse_append, List.reverse_reverse] at h2
    simpa [dropTrailingSpacers] using h2.symm
  have hsp : ((cs.reverse.takeWhile isSpacerNode).reverse).all isSpacerNode = true := by
    simp only [List.all_reverse]
    rw [List.all_eq_true]
    intro x hx
    exact List.mem_takeWhile_imp hx
  calc collectChildren (dropTrailingSpacers cs) indent
      = collectChildren (dropTrailingSpacers cs ++
          (cs.reverse.takeWhile isSpacerNode).reverse) indent :=
        (collectChildren_append_spacers _ _ _ hsp).symm
    _ = collectChildren cs indent := by rw [← hdecomp]

/-! ## The AST fragment consumed by the stubber

The constructors mirror the `ast` node classes matched in `Stubber.stub` and in the
expression-level helpers.  Load/Store expression contexts are not modelled: every
expression position the stubber inspects (`ast.Subscript(value, slc, ast.Load())`,
`ast.Tuple(elts, ast.Load())`, ...) carries a Load context in the inputs the code
handles, and annotation rewriting is only applied in load positions. -/

/-- Expressions: `ast.Name`, `ast.Attribute`, `ast.Subscript`, `ast.Tuple`,
`ast.List`, `ast.BinOp(_, ast.BitOr(), _)`, and `ast.Constant` for strings,
integers and `...`. -/
inductive Expr where
  | Name (id : String)
  | Attribute (value : Expr) (attr : String)
  | Subscript (value : Expr) (slc : Expr)
  | Tuple (elts : List Expr)
  | ListE (elts : List Expr)
  | BinOpOr (left : Expr) (right : Expr)
  | StrConst (s : String)
  | IntConst (n : Int)
  | EllipsisConst

/-- `ast.alias`: one member of an import statement. -/
structure Alias where
  name : String
  asname : Option String
  deriving DecidableEq, Repr

/-- `ast.arg`: one formal parameter (type comments are not modelled; they only
trigger a log message). -/
structure Arg where
  arg : String
  annot : Option Expr

/-- `ast.arguments`. -/
structure Arguments where
  posonlyargs : List Arg
  args : List Arg
  vararg : Option Arg
  kwonlyargs : List Arg
  kw_defaults : List (Option Expr)
  kwarg : Option Arg
  defaults : List Expr

/-- Statements, mirroring the cases of `Stubber.stub`.  `Try`/`With` carry only the
body the stubber reads (handlers, else/finally blocks and with-items are discarded
by `stub_try`/`stub_with` without being inspected).  `Pass` stands for the
intentionally-ignored statement kinds (`ast.Pass`, loops, bare calls, assert,
delete, raise, augmented assignment, structural match), and `Unrecognized` for the
fallback arm: both produce no output and only differ in which logger they hit. -/
inductive Stmt where
  | Import (names : List Alias)
  | ImportFrom (module : Option String) (level : Nat) (names : List Alias)
  | Assign (targets : List Expr) (value : Expr)
  | AnnAssign (target : Expr) (annot : Expr) (value : Option Expr) (simple : Bool)
  | ClassDef (name : String) (bases : List Expr) (keywords : List (String × Expr))
      (body : List Stmt) (decorator_list : List Expr)
  | FunctionDef (name : String) (args : Arguments) (body : List Stmt)
      (decorator_list : List Expr) (returns : Option Expr) (isAsync : Bool)
  | ExprStmt (value : Expr)
  | If (test : Expr) (body : List Stmt) (orelse : List Stmt)
  | Try (body : List Stmt)
  | With (body : List Stmt)
  | Pass
  | Unrecognized

/-! ## The `Source` wrapper (absent from `src/`, modelled from the spec) -/

mutual

/-- Modelled from the spec: `Source.unparse` re-renders canonical text for an AST
node (spec section 2).  The rendering follows the conventions of `ast.unparse` on
the modelled fragment: string constants are single-quoted (the development never
evaluates it on strings containing quotes or escapes), tuples are parenthesized
except directly under a subscript, and `|` unions are spaced. -/
def unparseExpr : Expr → String
  | Expr.Name id => id
  | Expr.Attribute v a => unparseExpr v ++ "." ++ a
  | Expr.Subscript v (Expr.Tuple es) =>
      unparseExpr v ++ "[" ++ pyJoin (", ") (unparseExprList es) ++ "]"
  | Expr.Subscript v s => unparseExpr v ++ "[" ++ unparseExpr s ++ "]"
  | Expr.Tuple es => "(" ++ pyJoin (", ") (unparseExprList es) ++ ")"
  | Expr.ListE es => "[" ++ pyJoin (", ") (unparseExprList es) ++ "]"
  | Expr.BinOpOr l r => unparseExpr l ++ " | " ++ unparseExpr r
  | Expr.StrConst s => "'" ++ s ++ "'"
  | Expr.IntConst n => intToStr n
  | Expr.EllipsisConst => "..."

def unparseExprList : List Expr → List String
  | [] => []
  | e :: rest => unparseExpr e :: unparseExprList rest

end

/-- Modelled from the spec: `Source.unparse_original_source` re-slices the original
source text verbatim for a node's span (spec section 2).  The embedding carries no
raw source text alongside the AST, so the original text of an expression is taken
to be its canonical rendering; every theorem below that evaluates it does so at
nodes whose original text is canonical. -/
def unparse_original_source_expr (e : Expr) : String := unparseExpr e

/-- Modelled from the spec: the statement-level `Source.unparse_original_source`,
used by `stub_expr` for verbatim docstring preservation, under the same
canonical-text modelling as `unparse_original_source_expr`. -/
def unparse_original_source_stmt : Stmt → String
  | Stmt.ExprStmt v => unparseExpr v
  | _ => ""

/-- `Source.unparse` on an import statement (`self.unparse(obj)` in
`stub_import`), following `ast.unparse` conventions. -/
def unparseImport : Stmt → String
  | Stmt.Import ns =>
      "import " ++ pyJoin (", ")
        (ns.map fun a => a.name ++ (match a.asname with
          | some b => " as " ++ b
          | none => ""))
  | Stmt.ImportFrom m level ns =>
      "from " ++ strJoinList (List.replicate level (".")) ++ m.getD "" ++
        " import " ++ pyJoin (", ")
        (ns.map fun a => a.name ++ (match a.asname with
          | some b => " as " ++ b
          | none => ""))
  | _ => ""

/-- Python identifier check used by the modelled parsers. -/
def isIdent (s : String) : Bool :=
  match s.data with
  | [] => false
  | c :: rest => (c.isAlpha || c == '_') && rest.all (fun d => d.isAlphanum || d == '_')

/-- Dotted-name check (`a.b.c`) used by the modelled parsers. -/
def isDottedName (s : String) : Bool :=
  !(pySplit s (".")).isEmpty && (pySplit s (".")).all isIdent

/-- Modelled from the spec: `Source.parse_expr` re-parses a string as a nested
expression (spec section 2), raising `SyntaxError` (here: `Except.error ()`) on
text that is not a valid expression.  The model covers the fragment this
development evaluates it on — identifiers, dotted names, integer literals and
`...`; every other string is rejected.  The failure witnesses used below are
strings that the Python parser rejects as well. -/
def parse_expr (s : String) : Except Unit Expr :=
  let t := pyStrip s
  if isIdent t then Except.ok (Expr.Name t)
  else if !(pyIsEmpty t) && t.data.all (·.isDigit) then
    Except.ok (Expr.IntConst
      (Int.ofNat (t.data.foldl (fun acc c => acc * 10 + (c.toNat - 48)) 0)))
  else if t == "..." then Except.ok Expr.EllipsisConst
  else Except.error ()

/-- One member of an import line: `name` or `name as alias`. -/
def parseAlias (s : String) : Except Unit Alias :=
  match pySplit s (" as ") with
  | [n] => if isDottedName n || n == "*" then Except.ok ⟨n, none⟩ else Except.error ()
  | [n, b] =>
      if (isDottedName n || n == "*") && isIdent b then Except.ok ⟨n, some b⟩
      else Except.error ()
  | _ => Except.error ()

/-- A value fragment on the right of `=`: `...`, an integer, or an identifier. -/
def parseValueFragment (s : String) : Except Unit Expr := parse_expr s

def parseAliasList : List String → Except Unit (List Alias)
  | [] => Except.ok []
  | s :: rest => do
      let a ← parseAlias s
      let tl ← parseAliasList rest
      pure (a :: tl)

/-- One physical line of the modelled module grammar; `none` for a blank line. -/
def parseLine (l : String) : Except Unit (Option Stmt) :=
  if pyIsEmpty (pyStrip l) then Except.ok none
  else if pyStartsWith l ("import ") then
    match parseAliasList (pySplit (pyDrop l 7) (", ")) with
    | Except.ok ns => Except.ok (some (Stmt.Import ns))
    | Except.error e => Except.error e
  else
    match pySplit l (" = ") with
    | [lhs] =>
        match pySplit lhs (": ") with
        | [t, a] =>
            if isIdent t && isIdent a then
              Except.ok (some (Stmt.AnnAssign (Expr.Name t) (Expr.Name a) none true))
            else Except.error ()
        | _ => Except.error ()
    | [lhs, rhs] =>
        match parseValueFragment rhs with
        | Except.error e => Except.error e
        | Except.ok v =>
            match pySplit lhs (": ") with
            | [t, a] =>
                if isIdent t && isIdent a then
                  Except.ok (some (Stmt.AnnAssign (Expr.Name t) (Expr.Name a) (some v) true))
                else Except.error ()
            | [t] =>
                if isIdent t then Except.ok (some (Stmt.Assign [Expr.Name t] v))
                else Except.error ()
            | _ => Except.error ()
    | _ => Except.error ()

/-- Modelled from the spec: `Source.parse_module` parses one file's text into an
AST (spec section 2; `source.py` is not part of `src/`).  The model covers the
line-oriented fragment this development feeds through the pipeline — top-level
`import` statements, `name: annot`, `name: annot = value` and `name = value`
lines, and blank lines — and rejects everything else, mirroring the fact that the
Python parser assigns these exact lines the corresponding `ast` nodes. -/
def parseLines : List String → Except Unit (List Stmt)
  | [] => Except.ok []
  | l :: rest => do
      let s? ← parseLine l
      let tl ← parseLines rest
      match s? with
      | some s => pure (s :: tl)
      | none => pure tl

def parse_module (inp : String) : Except Unit (List Stmt) :=
  parseLines (pySplit inp ("\n"))

/-! ## Predicate language and configuration (absent from `src/`, modelled from
the spec, sections 4.2 and 3) -/

/-- Modelled from the spec: unanchored regex search (spec section 4.2,
`regex_match`).  Modelled as substring containment, which coincides with regex
search for the regexes this development evaluates — all of them are plain literal
strings without metacharacters. -/
def charsInfixOf (pat : List Char) : List Char → Bool
  | [] => pat.isEmpty
  | c :: rest => pat.isPrefixOf (c :: rest) || charsInfixOf pat rest

def regexSearch (re : String) (s : String) : Bool :=
  charsInfixOf re.data s.data

/-- Modelled from the spec: `MatchContext` of `dubstub.config.match_ctx` — the
immutable snapshot for one decision (spec section 3). -/
structure MatchContext where
  parent_tags : List Tag
  tags : List Tag
  file_path : String
  name : Option String := none
  annot : Option String := none
  value : Option String := none
  child_tags : Option (List Tag) := none

/-- Modelled from the spec: a compiled `Pattern` of `dubstub.config.pattern` — a
constant boolean, one of the seven query functions applied to one string-literal
regex, or an `and`/`or`/`not` combination (spec section 4.2). -/
inductive Pattern where
  | lit (b : Bool)
  | node_is (re : String)
  | parent_node_is (re : String)
  | name_is (re : String)
  | file_path_is (re : String)
  | annot_is (re : String)
  | value_is (re : String)
  | any_child_node_is (re : String)
  | pand (p q : Pattern)
  | por (p q : Pattern)
  | pnot (p : Pattern)

/-- Modelled from the spec: pattern evaluation (spec section 4.2).
`node_is`/`parent_node_is` match if the regex matches any tag name of the
respective tag set; the string queries match against the corresponding optional
field and are false if the field is absent; `any_child_node_is` queries the union
of the direct children's tags. -/
def Pattern.is_match : Pattern → MatchContext → Bool
  | Pattern.lit b, _ => b
  | Pattern.node_is re, ctx => ctx.tags.any (fun t => regexSearch re (tagName t))
  | Pattern.parent_node_is re, ctx =>
      ctx.parent_tags.any (fun t => regexSearch re (tagName t))
  | Pattern.name_is re, ctx =>
      match ctx.name with
      | some s => regexSearch re s
      | none => false
  | Pattern.file_path_is re, ctx => regexSearch re ctx.file_path
  | Pattern.annot_is re, ctx =>
      match ctx.annot with
      | some s => regexSearch re s
      | none => false
  | Pattern.value_is re, ctx =>
      match ctx.value with
      | some s => regexSearch re s
      | none => false
  | Pattern.any_child_node_is re, ctx =>
      match ctx.child_tags with
      | some ts => ts.any (fun t => regexSearch re (tagName t))
      | none => false
  | Pattern.pand p q, ctx => p.is_match ctx && q.is_match ctx
  | Pattern.por p q, ctx => p.is_match ctx || q.is_match ctx
  | Pattern.pnot p, ctx => !p.is_match ctx

/-- Modelled from the spec: the fully-resolved `ValidatedConfig` fields that the
stubber consults (spec sections 3 and 4.3; each field is a compiled Pattern —
`config.get_pattern` is the identity here because all fields are stored
compiled).  Any assignment of patterns expressible in the section 4.2 grammar is
a validated configuration. -/
structure ValidatedConfig where
  keep_definitions : Pattern
  keep_trailing_docstrings : Pattern
  keep_unused_imports : Pattern
  keep_variable_value : Pattern
  keep_if_statements : Pattern
  flatten_if : Pattern
  add_implicit_none_return : Pattern
  add_redundant_ellipsis : Pattern

/-! ## The Stubber -/

/-- The per-invocation state of `Stubber` (`source`, `config`, `used_names`): the
source is reduced to its `relative_path` (the only part consulted during
stubbing besides the modelled global functions above), and `used_names` is fixed
for the whole invocation because the code only mutates it during the discovery
phase, which runs before `output`. -/
structure Stubber where
  file_path : String
  config : ValidatedConfig
  used_names : Option (List String)

/-- `Stubber.is_match`: build a `MatchContext` from the decision's fields and
evaluate the pattern.  `child_tags` is the union of the children's tags, and is
absent when the child list is absent or empty (`if children:`). -/
def Stubber.is_match (st : Stubber) (p : Pattern) (parent_tags tags : List Tag)
    (name annot value : Option String)
    (children : Option (List Node)) : Bool :=
  let child_tags : Option (List Tag) :=
    match children with
    | some cs => if cs.isEmpty then none else some (cs.foldl (fun acc c => acc ++ c.tags) [])
    | none => none
  p.is_match ⟨parent_tags, tags, st.file_path, name, annot, value, child_tags⟩

/-! ## Import handling (`Stubber.import_is_export`, `Stubber.get_imported_name`,
`Stubber.stub_import`) -/

/-- `Stubber.import_is_export`: a member is a self-re-export when it is the
wildcard, or its alias is textually identical to the imported name. -/
def import_is_export (name : Alias) : Bool :=
  if name.name == "*" then true
  else
    match name.asname with
    | none => false
    | some asname => name.name == asname

/-- `Stubber.get_imported_name`: the binding name an import member contributes —
the alias when present, else the first dotted segment, else the plain name. -/
def get_imported_name (name : Alias) : String :=
  match name.asname with
  | some asname => asname
  | none =>
      if !(pyContainsChar name.name '.') then name.name
      else (pySplit name.name (".")).headD name.name

/-- The member-survival test of the filtering loop in `stub_import`:
`keep_import = name == "*" or name in used_names or self.import_is_export(...)`. -/
def keepImportAlias (used_names : List String) (a : Alias) : Bool :=
  let n := get_imported_name a
  n == "*" || used_names.contains n || import_is_export a

def Stmt.isImportStmt : Stmt → Bool
  | Stmt.Import _ => true
  | Stmt.ImportFrom _ _ _ => true
  | _ => false

def importNames : Stmt → List Alias
  | Stmt.Import ns => ns
  | Stmt.ImportFrom _ _ ns => ns
  | _ => []

/-- `obj.names.clear(); obj.names.extend(new_names)` as a functional update. -/
def importWithNames : Stmt → List Alias → Stmt
  | Stmt.Import _, ns => Stmt.Import ns
  | Stmt.ImportFrom m l _, ns => Stmt.ImportFrom m l ns
  | s, _ => s

/-- `Stubber.stub_import`.  When the keep-unused-imports pattern does not match
and a usage set is present, members are filtered by `keepImportAlias`; an emptied
statement emits nothing, otherwise the (possibly filtered) statement is unparsed
into a single IMPORT-tagged node appended to the parent. -/
def stub_import (st : Stubber) (parent : Node) (s : Stmt) : Node :=
  let tags := [Tag.IMPORT]
  let keep_unused_import :=
    st.is_match st.config.keep_unused_imports parent.tags tags none none none none
  let filtered : Option Stmt :=
    if !keep_unused_import then
      match st.used_names with
      | some used =>
          let new_names := (importNames s).filter (keepImportAlias used)
          if new_names.isEmpty then none else some (importWithNames s new_names)
      | none => some s
    else some s
  match filtered with
  | none => parent
  | some s2 => parent.pushChild (Node.mk [unparseImport s2] [] tags)

/-! ## Annotation-position rewriting (`Stubber.unparse_type_expr`) -/

mutual

/-- `Stubber.unparse_type_expr`: convert an expression in type-annotation position
to stub syntax.  A subscript whose unparsed value is `Literal` is emitted in its
entirety from the original source; otherwise subscript arguments are rewritten
recursively, except that arguments after the first under `Annotated` are only
canonically unparsed.  Tuples and lists rewrite elementwise, `|` unions rewrite
both sides, and a string constant is reparsed as an expression and substituted
unquoted, falling back to the canonical rendering of the literal on parse
failure.  Everything else is returned unchanged (canonically unparsed). -/
def unparse_type_expr : Expr → String
  | Expr.Subscript v slc =>
      let pre := unparseExpr v
      if pre == "Literal" then unparse_original_source_expr (Expr.Subscript v slc)
      else
        match slc with
        | Expr.Tuple es =>
            pre ++ "[" ++ pyJoin (", ") (unparseTypeExprArgs pre 0 es) ++ "]"
        | s => pre ++ "[" ++ unparse_type_expr s ++ "]"
  | Expr.Tuple es => "(" ++ pyJoin (", ") (unparseTypeExprList es) ++ ")"
  | Expr.ListE es => "[" ++ pyJoin (", ") (unparseTypeExprList es) ++ "]"
  | Expr.BinOpOr l r => unparse_type_expr l ++ " | " ++ unparse_type_expr r
  | Expr.StrConst s =>
      match parse_expr s with
      | Except.ok e => unparseExpr e
      | Except.error _ => unparseExpr (Expr.StrConst s)
  | e => unparseExpr e

/-- The `for i, arg in enumerate(args)` loop of `unparse_type_expr`: arguments
after the first under an `Annotated` prefix are canonically unparsed, all others
are rewritten recursively. -/
def unparseTypeExprArgs (pre : String) (i : Nat) : List Expr → List String
  | [] => []
  | a :: rest =>
      (if 0 < i && pre == "Annotated" then unparseExpr a else unparse_type_expr a) ::
        unparseTypeExprArgs pre (i + 1) rest

def unparseTypeExprList : List Expr → List String
  | [] => []
  | a :: rest => unparse_type_expr a :: unparseTypeExprList rest

end

/-! ## Assignments (`Stubber.unparse_assign_target`, `Stubber.stub_assign`) -/

/-- `Stubber.unparse_assign_target`: a list of targets (plain assignment) joined
with `=`, or a single target, parenthesized when the annotated assignment is not
simple. -/
def unparse_assign_target : (List Expr ⊕ Expr) → Option Bool → String
  | Sum.inl targets, _ => pyJoin (" = ") (targets.map unparseExpr)
  | Sum.inr t, simple =>
      let u := unparseExpr t
      match simple with
      | some false => "(" ++ u ++ ")"
      | _ => u

/-- The body of `Stubber.stub_assign` after normalizing `ast.Assign` and
`ast.AnnAssign` into one shape. -/
def stub_assign_core (st : Stubber) (parent : Node) (targets : List Expr ⊕ Expr)
    (annot : Option Expr) (value : Option Expr) (simple : Option Bool) : Node :=
  let targets_unparsed := unparse_assign_target targets simple
  if pyContainsChar targets_unparsed '.' then parent
  else
    let name := pyStrip ((pySplit targets_unparsed ("=")).headD "")
    let annotated :=
      match annot with
      | some a =>
          let annotation_unparsed := unparse_type_expr a
          ((": " ++ annotation_unparsed), some annotation_unparsed, [Tag.ANNOTATED])
      | none => ("", none, [])
    let assigned :=
      match value with
      | some v =>
          let value_unparsed := unparseExpr v
          ((" = " ++ value_unparsed), some value_unparsed, [Tag.ASSIGNED])
      | none => ("", none, [])
    let tags := [Tag.VARIABLE] ++ annotated.2.2 ++ assigned.2.2
    let keep_variable_value :=
      st.is_match st.config.keep_variable_value parent.tags tags
        (some name) annotated.2.1 assigned.2.1 none
    let value_fragment :=
      if !keep_variable_value && assigned.1 != "" then " = ..." else assigned.1
    let line := targets_unparsed ++ annotated.1 ++ value_fragment
    let this := Node.mk [line] [] tags
    let keep_definitions :=
      st.is_match st.config.keep_definitions parent.tags tags
        (some name) annotated.2.1 assigned.2.1 none
    if !keep_definitions then parent else parent.pushChild this

/-- `Stubber.stub_assign`: normalize the two assignment forms and defer to
`stub_assign_core`.  A dotted target is a mutation, not a declaration, and emits
nothing. -/
def stub_assign (st : Stubber) (parent : Node) : Stmt → Node
  | Stmt.Assign targets value => stub_assign_core st parent (Sum.inl targets) none (some value) none
  | Stmt.AnnAssign t a v simple => stub_assign_core st parent (Sum.inr t) (some a) v (some simple)
  | _ => parent

/-! ## Bare expressions, ellipsis bodies -/

/-- `Stubber.as_string_constant` restricted to expressions. -/
def exprAsStringConstant : Expr → Option String
  | Expr.StrConst s => some s
  | _ => none

/-- `Stubber.as_string_constant` on a statement: unwrap `ast.Expr` first. -/
def as_string_constant : Stmt → Option String
  | Stmt.ExprStmt v => exprAsStringConstant v
  | _ => none

/-- `Stubber.stub_expr` (`obj.value` is passed): only a string-literal constant
can produce output — kept verbatim when first in its scope, or when the
keep-trailing-docstrings pattern matches the preceding sibling's tags; every
other bare expression statement is discarded. -/
def stub_expr (st : Stubber) (parent : Node) (value : Expr) : Node :=
  match value with
  | Expr.StrConst s =>
      let keep_docstring :=
        match parent.children.getLast? with
        | none => true
        | some preceding =>
            st.is_match st.config.keep_trailing_docstrings parent.tags preceding.tags
              none none none none
      if keep_docstring then
        parent.pushChild
          (Node.mk [unparse_original_source_stmt (Stmt.ExprStmt (Expr.StrConst s))] []
            [Tag.DOCSTRING])
      else parent
  | _ => parent

/-- `Stubber.check_body_ellipsis`: an empty body gets exactly one synthetic
ellipsis child; a non-empty body gets one appended when the
add-redundant-ellipsis pattern matches (with the children's tag union in
context). -/
def check_body_ellipsis (st : Stubber) (parent_tags : List Tag) (this : Node)
    (name : Option String) : Node :=
  if this.children.isEmpty then this.pushChild ellipsisNode
  else if st.is_match st.config.add_redundant_ellipsis parent_tags this.tags
      name none none (some this.children) then
    this.pushChild ellipsisNode
  else this

/-! ## Signatures (`Stubber.unparse_arg`, `Stubber.unparse_arguments`) -/

/-- `Stubber.unparse_arg`: parameter name, optional rewritten annotation, and —
when a default value is present — the placeholder `...` (the default itself is
reproduced only when `keep_val` is set, which no stubbing call site does). -/
def unparse_arg (arg : Arg) (val : Option Expr) (keep_val : Bool) : String :=
  let ret := arg.arg
  let ret :=
    match arg.annot with
    | some a => ret ++ ": " ++ unparse_type_expr a
    | none => ret
  match val with
  | some v => if keep_val then ret ++ " = " ++ unparseExpr v else ret ++ " = ..."
  | none => ret

/-- The `aligned_defaults` list of `unparse_arguments`: the last `len(defaults)`
positions hold the defaults, the initial gap is `None`. -/
def alignedDefaults (total : Nat) (defaults : List Expr) : List (Option Expr) :=
  List.replicate (total - defaults.length) none ++ defaults.map some

/-- The positional loops of `unparse_arguments`: each parameter is paired with
`aligned_defaults[def_counter]`, the counter advancing by one per parameter. -/
def unparseArgsLoop (aligned : List (Option Expr)) (counter : Nat) : List Arg → List String
  | [] => []
  | a :: rest =>
      unparse_arg a ((aligned.get? counter).getD none) false ::
        unparseArgsLoop aligned (counter + 1) rest

/-- The keyword-only loop of `unparse_arguments`: each parameter is paired with
`kw_defaults[kw_def_counter]`. -/
def unparseKwArgsLoop (kw_defaults : List (Option Expr)) (counter : Nat) :
    List Arg → List String
  | [] => []
  | a :: rest =>
      unparse_arg a ((kw_defaults.get? counter).getD none) false ::
        unparseKwArgsLoop kw_defaults (counter + 1) rest

/-- `Stubber.unparse_arguments`: positional-only parameters followed by a literal
`/`, positional parameters, a `*`-prefixed vararg (or a bare `*` before
keyword-only parameters), keyword-only parameters, and a `**`-prefixed kwarg —
joined with `", "`. -/
def unparse_arguments (ast_args : Arguments) : String :=
  let aligned := alignedDefaults (ast_args.posonlyargs.length + ast_args.args.length)
    ast_args.defaults
  let posonly_part :=
    if ast_args.posonlyargs.isEmpty then []
    else unparseArgsLoop aligned 0 ast_args.posonlyargs ++ ["/"]
  let args_part := unparseArgsLoop aligned ast_args.posonlyargs.length ast_args.args
  let vararg_part :=
    match ast_args.vararg with
    | some v => ["*" ++ unparse_arg v none false]
    | none => if ast_args.kwonlyargs.isEmpty then [] else ["*"]
  let kwonly_part := unparseKwArgsLoop ast_args.kw_defaults 0 ast_args.kwonlyargs
  let kwarg_part :=
    match ast_args.kwarg with
    | some k => ["**" ++ unparse_arg k none false]
    | none => []
  pyJoin (", ")
    (posonly_part ++ args_part ++ vararg_part ++ kwonly_part ++ kwarg_part)

/-! ## Statement dispatch (`Stubber.stub` and the block constructs) -/

mutual

/-- `Stubber.stub`: exhaustive dispatch over statement kinds.  The class,
function and if arms inline `stub_class`, `stub_func` and `stub_if`; `Try` and
`With` splice their body into the parent scope; `Pass`/`Unrecognized` stand for
the intentionally-ignored and unhandled arms, which only log. -/
def stubStmt (st : Stubber) (parent : Node) (s : Stmt) : Node :=
  match s with
  | Stmt.Import ns => stub_import st parent (Stmt.Import ns)
  | Stmt.ImportFrom m l ns => stub_import st parent (Stmt.ImportFrom m l ns)
  | Stmt.Assign targets value => stub_assign st parent (Stmt.Assign targets value)
  | Stmt.AnnAssign t a v simple => stub_assign st parent (Stmt.AnnAssign t a v simple)
  | Stmt.ClassDef name bases keywords body decorator_list =>
      let tags := [Tag.CLASS]
      if !(st.is_match st.config.keep_definitions parent.tags tags (some name) none none none) then
        parent
      else
        let decorators := decorator_list.map (fun d => "@" ++ unparseExpr d)
        let generics := ""
        let bases_unparsed := bases.map unparseExpr ++
          keywords.map (fun kw => kw.1 ++ " = " ++ unparseExpr kw.2)
        let sig_bases :=
          if bases_unparsed.isEmpty then ""
          else "(" ++ pyJoin (", ") bases_unparsed ++ ")"
        let this0 :=
          Node.mk (decorators ++ ["class " ++ name ++ generics ++ sig_bases ++ ":"]) [] tags
        let this1 := stubStmts st this0 body
        let this2 := check_body_ellipsis st parent.tags this1 (some name)
        (parent.pushChild this2).pushChild spacerNode
  | Stmt.FunctionDef name args body decorator_list returns isAsync =>
      let tags := [Tag.FUNCTION]
      if !(st.is_match st.config.keep_definitions parent.tags tags (some name) none none none) then
        parent
      else
        let decorators := decorator_list.map (fun d => "@" ++ unparseExpr d)
        let generics := ""
        let args_unparsed := unparse_arguments args
        let returns_unparsed :=
          match returns with
          | some r => " -> " ++ unparse_type_expr r
          | none =>
              if st.is_match st.config.add_implicit_none_return parent.tags tags
                  (some name) none none none then
                " -> None"
              else ""
        let signature0 :=
          "def " ++ name ++ generics ++ "(" ++ args_unparsed ++ ")" ++ returns_unparsed ++ ":"
        let signature := if isAsync then "async " ++ signature0 else signature0
        let this0 := Node.mk (decorators ++ [signature]) [] tags
        let this1 :=
          match body with
          | b0 :: _ => if (as_string_constant b0).isSome then stubStmt st this0 b0 else this0
          | [] => this0
        let this2 := check_body_ellipsis st parent.tags this1 (some name)
        (parent.pushChild this2).pushChild spacerNode
  | Stmt.ExprStmt v => stub_expr st parent v
  | Stmt.If test body orelse =>
      let test_unparsed := unparseExpr test
      let tags := [Tag.IF]
      let flat := st.is_match st.config.flatten_if parent.tags tags none none (some test_unparsed) none
      let parent1 := if flat then stubStmts st parent body else parent
      if st.is_match st.config.keep_if_statements parent1.tags tags none none none none then
        let this0 := Node.mk (["if " ++ test_unparsed ++ ":"]) [] tags
        let this1 := if flat then this0 else stubStmts st this0 body
        let parent2 := parent1.pushChild (check_body_ellipsis st parent1.tags this1 none)
        stubElifChain st parent2 orelse
      else parent1
  | Stmt.Try body => stubStmts st parent body
  | Stmt.With body => stubStmts st parent body
  | Stmt.Pass => parent
  | Stmt.Unrecognized => parent

def stubStmts (st : Stubber) (parent : Node) : List Stmt → Node
  | [] => parent
  | s :: rest => stubStmts st (stubStmt st parent s) rest

/-- The `while len(orelse) == 1 and isinstance(orelse[0], ast.If)` loop of
`stub_if`, followed by the final `else` arm for a non-empty non-elif remainder. -/
def stubElifChain (st : Stubber) (parent : Node) (orelse : List Stmt) : Node :=
  match orelse with
  | [] => parent
  | (Stmt.If test2 body2 orelse2) :: [] =>
      let this0 := Node.mk (["elif " ++ unparseExpr test2 ++ ":"]) [] [Tag.IF]
      let this1 := stubStmts st this0 body2
      stubElifChain st (parent.pushChild (check_body_ellipsis st parent.tags this1 none)) orelse2
  | o :: rest =>
      let this0 := Node.mk (["else:"]) [] [Tag.IF]
      let this1 := stubStmts st (stubStmt st this0 o) rest
      parent.pushChild (check_body_ellipsis st parent.tags this1 none)

end

/-- `Stubber.output`: wrap the module body in a MODULE-tagged node (`stub_module`
adds one MODULE child to a pretend parent and stubs the body into it), flatten it
with `collect_lines`, and join with newlines plus a trailing newline. -/
def Stubber.output (st : Stubber) (body : List Stmt) : String :=
  let module_node := stubStmts st (Node.mk [] [] [Tag.MODULE]) body
  pyJoin ("\n") (collectLines module_node 0) ++ "\n"

/-! ## Name-usage discovery (`Stubber.discover_*`) -/

mutual

/-- `ast.walk` restricted to collecting `ast.Name` identifiers inside an
expression (`discover_any_names` adds exactly those). -/
def walkExpr : Expr → List String
  | Expr.Name id => [id]
  | Expr.Attribute v _ => walkExpr v
  | Expr.Subscript v s => walkExpr v ++ walkExpr s
  | Expr.Tuple es => walkExprList es
  | Expr.ListE es => walkExprList es
  | Expr.BinOpOr l r => walkExpr l ++ walkExpr r
  | Expr.StrConst _ => []
  | Expr.IntConst _ => []
  | Expr.EllipsisConst => []

def walkExprList : List Expr → List String
  | [] => []
  | e :: rest => walkExpr e ++ walkExprList rest

end

/-- `ast.walk` over `ast.arguments`: annotations of all parameter groups and the
default expressions contain the only `ast.Name` nodes. -/
def walkArgs (a : Arguments) : List String :=
  let argAnnot : Arg → List String := fun x =>
    match x.annot with
    | some e => walkExpr e
    | none => []
  (a.posonlyargs.map argAnnot).flatten ++ (a.args.map argAnnot).flatten ++
    (match a.vararg with
      | some v => argAnnot v
      | none => []) ++
    (a.kwonlyargs.map argAnnot).flatten ++
    (a.kw_defaults.map (fun o =>
      match o with
      | some e => walkExpr e
      | none => [])).flatten ++
    (match a.kwarg with
      | some k => argAnnot k
      | none => []) ++
    walkExprList a.defaults

mutual

/-- `ast.walk` over one statement, collecting every `ast.Name` identifier
(class and function names are plain string fields, not `Name` nodes, and import
aliases contain no `Name` nodes either). -/
def walkStmt : Stmt → List String
  | Stmt.Import _ => []
  | Stmt.ImportFrom _ _ _ => []
  | Stmt.Assign targets value => walkExprList targets ++ walkExpr value
  | Stmt.AnnAssign t a v _ =>
      walkExpr t ++ walkExpr a ++
        (match v with
          | some e => walkExpr e
          | none => [])
  | Stmt.ClassDef _ bases keywords body decorator_list =>
      walkExprList bases ++ walkExprList (keywords.map Prod.snd) ++ walkStmts body ++
        walkExprList decorator_list
  | Stmt.FunctionDef _ args body decorator_list returns _ =>
      walkArgs args ++ walkStmts body ++ walkExprList decorator_list ++
        (match returns with
          | some r => walkExpr r
          | none => [])
  | Stmt.ExprStmt v => walkExpr v
  | Stmt.If test body orelse => walkExpr test ++ walkStmts body ++ walkStmts orelse
  | Stmt.Try body => walkStmts body
  | Stmt.With body => walkStmts body
  | Stmt.Pass => []
  | Stmt.Unrecognized => []

def walkStmts : List Stmt → List String
  | [] => []
  | s :: rest => walkStmt s ++ walkStmts rest

end

/-- `Stubber.discover_special_assign_names` after the same normalization as
`stub_assign`: for a `NAME: TypeAlias = VALUE` assignment the rewritten value is
re-parsed and its identifiers collected (a reparse failure propagates, as the
Python `SyntaxError` would); for an `__all__` list/tuple assignment the
string-constant elements are added as used names. -/
def discover_special_assign_core (used : List String) (targets : List Expr ⊕ Expr)
    (annot : Option Expr) (value : Option Expr) (simple : Option Bool) :
    Except Unit (List String) := do
  let used1 ←
    match annot, value with
    | some a, some v =>
        if unparseExpr a == "TypeAlias" then do
          let re_parsed ← parse_expr (unparse_type_expr v)
          pure (used ++ walkExpr re_parsed)
        else pure used
    | _, _ => pure used
  let targets_unparsed := unparse_assign_target targets simple
  if targets_unparsed == "__all__" then
    match value with
    | some (Expr.ListE elts) => pure (used1 ++ elts.filterMap exprAsStringConstant)
    | some (Expr.Tuple elts) => pure (used1 ++ elts.filterMap exprAsStringConstant)
    | _ => pure used1
  else pure used1

def discover_special_assign_names (used : List String) : Stmt → Except Unit (List String)
  | Stmt.Assign targets value =>
      discover_special_assign_core used (Sum.inl targets) none (some value) none
  | Stmt.AnnAssign t a v simple =>
      discover_special_assign_core used (Sum.inr t) (some a) v (some simple)
  | _ => pure used

/-- `Stubber.discover_module_names`: walk all non-import top-level statements.
The usage set is lazily initialized (`_get_or_init_used_names`): it stays absent
when every top-level statement is an import, which disables pruning downstream. -/
def discover_module_names_loop (acc : Option (List String)) :
    List Stmt → Except Unit (Option (List String))
  | [] => pure acc
  | s :: rest => do
      let acc2 ←
        match s with
        | Stmt.Import _ => pure acc
        | Stmt.ImportFrom _ _ _ => pure acc
        | Stmt.Assign targets value => do
            let used1 := acc.getD [] ++ walkStmt (Stmt.Assign targets value)
            let used2 ← discover_special_assign_names used1 (Stmt.Assign targets value)
            pure (some used2)
        | Stmt.AnnAssign t a v simple => do
            let used1 := acc.getD [] ++ walkStmt (Stmt.AnnAssign t a v simple)
            let used2 ← discover_special_assign_names used1 (Stmt.AnnAssign t a v simple)
            pure (some used2)
        | other => pure (some (acc.getD [] ++ walkStmt other))
      discover_module_names_loop acc2 rest

def discover_module_names (body : List Stmt) : Except Unit (Option (List String)) :=
  discover_module_names_loop none body

/-! ## The two-pass driver (`_stub_content`, `stubgen_single_file_src`) -/

/-- `_stub_content`: parse the text, optionally run usage discovery on a fresh
`Stubber` (its `used_names` starts as `None` every invocation), and render. -/
def stub_content (inp : String) (relative_path : String) (config : ValidatedConfig)
    (discover_imports : Bool) : Except Unit String := do
  let ast_module ← parse_module inp
  let used ← if discover_imports then discover_module_names ast_module else pure none
  let stubber : Stubber := ⟨relative_path, config, used⟩
  pure (stubber.output ast_module)

/-- `stubgen_single_file_src`: generate the initial stub, then re-stub the stub,
activating usage discovery unless the keep-unused-imports pattern matches at
module level. -/
def stubgen_single_file_src (inp : String) (relative_path : String)
    (config : ValidatedConfig) : Except Unit String := do
  let stubbed ← stub_content inp relative_path config false
  stub_content stubbed relative_path config
    (!(config.keep_unused_imports.is_match
      ⟨[Tag.MODULE], [Tag.IMPORT], relative_path, none, none, none, none⟩))

/-! # Theorems about the claims -/

/-- A validated configuration with import pruning enabled
(`keep_unused_imports = False`), value erasure enabled
(`keep_variable_value = False`) and a definition-retention pattern that inspects
the value and annotation text, `value_is('1') or annotation_is('int')` — the same
shape as the `value_is("TypeVar.*")` retention pattern exercised by the
repository's own `test_config_keep_definitions`. -/
def idemBugConfig : ValidatedConfig where
  keep_definitions := Pattern.por (Pattern.value_is ("1")) (Pattern.annot_is ("int"))
  keep_trailing_docstrings := Pattern.lit false
  keep_unused_imports := Pattern.lit false
  keep_variable_value := Pattern.lit false
  keep_if_statements := Pattern.lit true
  flatten_if := Pattern.lit false
  add_implicit_none_return := Pattern.lit false
  add_redundant_ellipsis := Pattern.lit false

/-- C1: the idempotence claim fails on the code.  For the input
`import a / x: a = 1 / y: int = 2` under `idemBugConfig`, the first run keeps
`import a` (pass 2 judges it live against `x: a = ...`, which pass 2 then drops
because its value text is now `...`), so the output still mentions `a` nowhere —
and a second run prunes `import a` away: `stub(stub(x)) ≠ stub(x)`. -/
theorem stubgen_not_idempotent_on_value_pattern_config :
    stubgen_single_file_src ("import a\nx: a = 1\ny: int = 2") ("file.py") idemBugConfig =
      Except.ok ("import a\ny: int = ...\n") ∧
    stubgen_single_file_src ("import a\ny: int = ...\n") ("file.py") idemBugConfig =
      Except.ok ("y: int = ...\n") ∧
    ("import a\ny: int = ...\n" : String) ≠ ("y: int = ...\n") ∧
    ((stubgen_single_file_src ("import a\nx: a = 1\ny: int = 2") ("file.py")
        idemBugConfig).bind
      (fun out => stubgen_single_file_src out ("file.py") idemBugConfig) ≠
      stubgen_single_file_src ("import a\nx: a = 1\ny: int = 2") ("file.py")
        idemBugConfig) :=
  ⟨rfl, rfl, by decide, fun h => absurd (Except.ok.inj h) (by decide)⟩

/-- C3: if stubbing a class or function body contributed zero child nodes, then
`check_body_ellipsis` makes the body exactly one ellipsis-tagged child carrying
the single line `...` — never zero and never more than one — and that child
renders as exactly one body line. -/
theorem check_body_ellipsis_empty_body (st : Stubber) (parent_tags : List Tag)
    (this : Node) (name : Option String) (h : this.children = []) :
    (check_body_ellipsis st parent_tags this name).children =
      [Node.mk ["..."] [] [Tag.ELLIPSIS]] ∧
    collectLines (Node.mk ["..."] [] [Tag.ELLIPSIS]) 1 = ["    ..."] := by
  constructor
  · have hempty : this.children.isEmpty = true := by rw [h]; rfl
    rw [check_body_ellipsis, if_pos hempty, Node.children_pushChild, h]
    rfl
  · rfl

theorem check_body_ellipsis_empty_body_witness :
    (check_body_ellipsis ⟨"file.py", idemBugConfig, none⟩ [Tag.MODULE]
        (Node.mk ["class C:"] [] [Tag.CLASS]) (some ("C"))).children =
      [Node.mk ["..."] [] [Tag.ELLIPSIS]] :=
  (check_body_ellipsis_empty_body ⟨"file.py", idemBugConfig, none⟩ [Tag.MODULE]
    (Node.mk ["class C:"] [] [Tag.CLASS]) (some ("C")) rfl).1

/-- C7: rendering a child sequence that ends in one or more spacer-tagged nodes
yields exactly the same text as rendering the sequence with the trailing spacers
removed, so a rendered block never ends in a blank separator line. -/
theorem collectLines_ignores_trailing_spacers (lines : List String)
    (cs sp : List Node) (tags : List Tag) (indent : Nat)
    (h : ∀ x ∈ sp, Tag.SPACER ∈ x.tags) :
    collectLines (Node.mk lines (cs ++ sp) tags) indent =
      collectLines (Node.mk lines cs tags) indent := by
  have hall : sp.all isSpacerNode = true := by
    rw [List.all_eq_true]
    intro x hx
    simp only [isSpacerNode, decide_eq_true_eq]
    exact h x hx
  simp only [collectLines]
  rw [collectChildren_append_spacers _ _ _ hall]

theorem collectLines_ignores_trailing_spacers_witness :
    collectLines (Node.mk ["class C:"]
        [Node.mk ["x: int"] [] [Tag.VARIABLE], spacerNode, spacerNode] [Tag.CLASS]) 0 =
      collectLines (Node.mk ["class C:"] [Node.mk ["x: int"] [] [Tag.VARIABLE]] [Tag.CLASS]) 0 :=
  collectLines_ignores_trailing_spacers ["class C:"]
    [Node.mk ["x: int"] [] [Tag.VARIABLE]] [spacerNode, spacerNode] [Tag.CLASS] 0
    (by decide)

/-- C8: in annotation position a string-literal constant is reparsed as an
expression and substituted unquoted on success, and on a reparse failure the
error is absorbed locally — the rewrite falls back to rendering the original
literal, so the (total) transform never fails because of a failed reparse. -/
theorem unparse_type_expr_reparse_fallback (s : String) :
    (∀ e, parse_expr s = Except.ok e →
      unparse_type_expr (Expr.StrConst s) = unparseExpr e) ∧
    (parse_expr s = Except.error () →
      unparse_type_expr (Expr.StrConst s) = unparseExpr (Expr.StrConst s)) := by
  constructor
  · intro e he
    rw [unparse_type_expr, he]
  · intro he
    rw [unparse_type_expr, he]

theorem unparse_type_expr_reparse_fallback_witness :
    unparse_type_expr (Expr.StrConst ("int")) = "int" ∧
    unparse_type_expr (Expr.StrConst ("foo bar")) = "'foo bar'" :=
  ⟨((unparse_type_expr_reparse_fallback ("int")).1 (Expr.Name ("int")) rfl).trans rfl,
    ((unparse_type_expr_reparse_fallback ("foo bar")).2 rfl).trans rfl⟩

/-- C9: determinism — two runs of `stubgen_single_file_src` on identical input
text, relative path and configuration yield identical output.  In this embedding
every run constructs its own `Stubber` with `used_names := none` inside
`stub_content`, so no state can carry over between runs and the driver is a pure
function of its three arguments. -/
theorem stubgen_deterministic (inp1 inp2 path1 path2 : String)
    (cfg1 cfg2 : ValidatedConfig) (hinp : inp1 = inp2) (hpath : path1 = path2)
    (hcfg : cfg1 = cfg2) :
    stubgen_single_file_src inp1 path1 cfg1 = stubgen_single_file_src inp2 path2 cfg2 := by
  subst hinp
  subst hpath
  subst hcfg
  rfl

theorem stubgen_deterministic_witness :
    stubgen_single_file_src ("x = 1") ("file.py") idemBugConfig =
      stubgen_single_file_src ("x = 1") ("file.py") idemBugConfig :=
  stubgen_deterministic ("x = 1") ("x = 1") ("file.py") ("file.py")
    idemBugConfig idemBugConfig rfl rfl rfl

/-- C2: when the keep-unused-imports pattern does not match and a usage set is
present, `stub_import` keeps exactly the members whose imported binding name is
the wildcard, is contained in the usage set, or is a self-re-export; an emptied
statement emits no node; surviving members are the order-preserving filter of the
original member list, and the parent's earlier children stay as an unchanged
prefix, so statements keep their relative order. -/
theorem stub_import_prunes_exactly (st : Stubber) (parent : Node) (s : Stmt)
    (u : List String) (_himp : Stmt.isImportStmt s = true)
    (hused : st.used_names = some u)
    (hkeep : st.is_match st.config.keep_unused_imports parent.tags [Tag.IMPORT]
      none none none none = false) :
    (stub_import st parent s =
      if ((importNames s).filter (keepImportAlias u)).isEmpty then parent
      else parent.pushChild (Node.mk
        [unparseImport (importWithNames s ((importNames s).filter (keepImportAlias u)))]
        [] [Tag.IMPORT])) ∧
    ((importNames s).filter (keepImportAlias u)).Sublist (importNames s) ∧
    (∀ a : Alias, a ∈ (importNames s).filter (keepImportAlias u) ↔
      a ∈ importNames s ∧ (get_imported_name a = "*" ∨
        u.contains (get_imported_name a) = true ∨ import_is_export a = true)) ∧
    parent.children <+: (stub_import st parent s).children := by
  have hmain : stub_import st parent s =
      if ((importNames s).filter (keepImportAlias u)).isEmpty then parent
      else parent.pushChild (Node.mk
        [unparseImport (importWithNames s ((importNames s).filter (keepImportAlias u)))]
        [] [Tag.IMPORT]) := by
    simp only [stub_import, hkeep, hused, Bool.not_false, if_pos]
    by_cases hemp : ((importNames s).filter (keepImportAlias u)).isEmpty = true
    · simp [hemp]
    · simp [hemp]
  refine ⟨hmain, List.filter_sublist _, ?_, ?_⟩
  · intro a
    rw [List.mem_filter]
    constructor
    · rintro ⟨hmem, hp⟩
      refine ⟨hmem, ?_⟩
      simpa [keepImportAlias, Bool.or_eq_true, beq_iff_eq, or_assoc] using hp
    · rintro ⟨hmem, hp⟩
      refine ⟨hmem, ?_⟩
      simpa [keepImportAlias, Bool.or_eq_true, beq_iff_eq, or_assoc] using hp
  · rw [hmain]
    by_cases hemp : ((importNames s).filter (keepImportAlias u)).isEmpty = true
    · simp only [hemp, if_pos]
      exact List.prefix_refl _
    · simp only [hemp, Bool.false_eq_true, if_neg, Node.children_pushChild]
      exact List.prefix_append _ _

theorem stub_import_prunes_exactly_witness :
    stub_import ⟨"file.py", idemBugConfig, some ["a"]⟩ (Node.mk [] [] [Tag.MODULE])
        (Stmt.Import [⟨"a.b", none⟩, ⟨"z", none⟩, ⟨"w", some ("w")⟩]) =
      (Node.mk [] [] [Tag.MODULE]).pushChild
        (Node.mk ["import a.b, w as w"] [] [Tag.IMPORT]) :=
  ((stub_import_prunes_exactly ⟨"file.py", idemBugConfig, some ["a"]⟩
    (Node.mk [] [] [Tag.MODULE])
    (Stmt.Import [⟨"a.b", none⟩, ⟨"z", none⟩, ⟨"w", some ("w")⟩])
    ["a"] rfl rfl rfl).1).trans rfl

/-- A validated configuration that keeps everything, keeps trailing docstrings,
and adds no implicit return or redundant ellipsis; used as a plain context for
the rendering-level examples. -/
def plainConfig : ValidatedConfig where
  keep_definitions := Pattern.lit true
  keep_trailing_docstrings := Pattern.lit true
  keep_unused_imports := Pattern.lit true
  keep_variable_value := Pattern.lit true
  keep_if_statements := Pattern.lit true
  flatten_if := Pattern.lit false
  add_implicit_none_return := Pattern.lit false
  add_redundant_ellipsis := Pattern.lit false

/-- C6: a bare expression statement produces output only when its value is a
string-literal constant; such a literal is appended verbatim (via original-source
slicing) as a DOCSTRING node when it is first in its scope, and when not first it
is kept exactly when the keep-trailing-docstrings pattern matches against the
preceding sibling's tags; every other bare expression is discarded with no
output. -/
theorem stub_expr_docstring_policy (st : Stubber) (parent : Node) (v : Expr) :
    ((exprAsStringConstant v).isNone = true → stub_expr st parent v = parent) ∧
    (∀ s, v = Expr.StrConst s → parent.children = [] →
      stub_expr st parent v = parent.pushChild (Node.mk
        [unparse_original_source_stmt (Stmt.ExprStmt (Expr.StrConst s))] []
        [Tag.DOCSTRING])) ∧
    (∀ s cs c, v = Expr.StrConst s → parent.children = cs ++ [c] →
      stub_expr st parent v =
        if st.is_match st.config.keep_trailing_docstrings parent.tags c.tags
            none none none none then
          parent.pushChild (Node.mk
            [unparse_original_source_stmt (Stmt.ExprStmt (Expr.StrConst s))] []
            [Tag.DOCSTRING])
        else parent) := by
  refine ⟨?_, ?_, ?_⟩
  · intro hnone
    cases v with
    | StrConst s => simp [exprAsStringConstant] at hnone
    | Name id => rfl
    | Attribute a b => rfl
    | Subscript a b => rfl
    | Tuple es => rfl
    | ListE es => rfl
    | BinOpOr l r => rfl
    | IntConst n => rfl
    | EllipsisConst => rfl
  · intro s hv hc
    subst hv
    simp [stub_expr, hc]
  · intro s cs c hv hc
    subst hv
    simp only [stub_expr, hc, List.getLast?_concat]

theorem stub_expr_docstring_policy_witness :
    stub_expr ⟨"file.py", plainConfig, none⟩
        (Node.mk [] [Node.mk ["import a"] [] [Tag.IMPORT]] [Tag.MODULE])
        (Expr.StrConst ("doc")) =
      (Node.mk [] [Node.mk ["import a"] [] [Tag.IMPORT]] [Tag.MODULE]).pushChild
        (Node.mk ["'doc'"] [] [Tag.DOCSTRING]) :=
  ((stub_expr_docstring_policy ⟨"file.py", plainConfig, none⟩
    (Node.mk [] [Node.mk ["import a"] [] [Tag.IMPORT]] [Tag.MODULE])
    (Expr.StrConst ("doc"))).2.2 ("doc") [] (Node.mk ["import a"] [] [Tag.IMPORT])
    rfl rfl).trans rfl

/-- C10: the binding name an import member contributes to the pruning check is
its alias when one is present; otherwise, for a dotted name it is the first
dotted segment, and otherwise the plain name — so an un-aliased dotted import
survives pruning exactly when its first segment is in the usage set. -/
theorem get_imported_name_binding (a : Alias) (u : List String) :
    (∀ b, a.asname = some b → get_imported_name a = b) ∧
    (a.asname = none → pyContainsChar a.name '.' = false →
      get_imported_name a = a.name) ∧
    (a.asname = none → pyContainsChar a.name '.' = true →
      get_imported_name a = (pySplit a.name (".")).headD a.name) ∧
    (a.asname = none → pyContainsChar a.name '.' = true →
      (pySplit a.name (".")).headD a.name ≠ "*" →
      keepImportAlias u a = u.contains ((pySplit a.name (".")).headD a.name)) := by
  refine ⟨?_, ?_, ?_, ?_⟩
  · intro b hb
    rw [get_imported_name, hb]
  · intro h1 h2
    rw [get_imported_name, h1, h2]
    rfl
  · intro h1 h2
    rw [get_imported_name, h1, h2]
    rfl
  · intro h1 h2 hstar
    have hname : a.name ≠ "*" := by
      intro he
      rw [he] at h2
      exact absurd h2 (by decide)
    have hget : get_imported_name a = (pySplit a.name (".")).headD a.name := by
      rw [get_imported_name, h1, h2]
      rfl
    have hexp : import_is_export a = false := by
      rw [import_is_export]
      rw [if_neg (by simpa [beq_iff_eq] using hname)]
      rw [h1]
    rw [keepImportAlias, hget, hexp]
    have hstar2 : (((pySplit a.name (".")).headD a.name) == "*") = false := by
      simpa [beq_iff_eq] using hstar
    rw [hstar2]
    simp

theorem get_imported_name_binding_witness :
    get_imported_name ⟨"a.b.c.X", none⟩ = "a" ∧
    keepImportAlias ["a", "y"] ⟨"a.b.c.X", none⟩ = true :=
  ⟨((get_imported_name_binding ⟨"a.b.c.X", none⟩ []).2.2.1 rfl rfl).trans rfl,
    ((get_imported_name_binding ⟨"a.b.c.X", none⟩ ["a", "y"]).2.2.2 rfl rfl
      (by decide)).trans rfl⟩

/-- The arguments of `def f(a, b=1, *, c, d=2, **e)`. -/
def exampleArguments : Arguments :=
  ⟨[], [⟨"a", none⟩, ⟨"b", none⟩], none, [⟨"c", none⟩, ⟨"d", none⟩],
    [none, some (Expr.IntConst 2)], some ⟨"e", none⟩, [Expr.IntConst 1]⟩

/-- The definition `def f(a, b=1, *, c, d=2, **e): ...` as a statement. -/
def exampleFuncDef : Stmt := Stmt.FunctionDef ("f") exampleArguments [] [] none false

/-- C4 counterexample: the code renders every erased default as `" = ..."` —
with spaces around the equals sign — so the claimed output text
`def f(a, b=..., *, c, d=..., **e): ...` is not produced; the parameter list
actually rendered is `a, b = ..., *, c, d = ..., **e`, and the ellipsis body is
emitted on its own indented line. -/
theorem unparse_arguments_example_spacing :
    Stubber.output ⟨"file.py", plainConfig, none⟩ [exampleFuncDef] =
      "def f(a, b = ..., *, c, d = ..., **e):\n    ...\n" ∧
    unparse_arguments exampleArguments = "a, b = ..., *, c, d = ..., **e" ∧
    unparse_arguments exampleArguments ≠ "a, b=..., *, c, d=..., **e" :=
  ⟨rfl, rfl, by decide⟩

theorem unparse_arg_some_placeholder (a : Arg) (v : Expr) :
    unparse_arg a (some v) false = unparse_arg a none false ++ " = ..." := rfl

theorem unparse_arg_isSome_congr (a : Arg) (o1 o2 : Option Expr)
    (h : o1.isSome = o2.isSome) : unparse_arg a o1 false = unparse_arg a o2 false := by
  cases o1 with
  | none =>
      cases o2 with
      | none => rfl
      | some w => simp at h
  | some v =>
      cases o2 with
      | none => simp at h
      | some w =>
          rw [unparse_arg_some_placeholder, unparse_arg_some_placeholder]

theorem unparseArgsLoop_congr (args : List Arg) (al1 al2 : List (Option Expr))
    (h : ∀ i, ((al1.get? i).getD none).isSome = ((al2.get? i).getD none).isSome) :
    ∀ k, unparseArgsLoop al1 k args = unparseArgsLoop al2 k args := by
  induction args with
  | nil => intro k; rfl
  | cons a rest ih =>
      intro k
      simp only [unparseArgsLoop]
      rw [unparse_arg_isSome_congr a _ _ (h k), ih]

theorem unparseKwArgsLoop_congr (args : List Arg) (kd1 kd2 : List (Option Expr))
    (h : ∀ i, ((kd1.get? i).getD none).isSome = ((kd2.get? i).getD none).isSome) :
    ∀ k, unparseKwArgsLoop kd1 k args = unparseKwArgsLoop kd2 k args := by
  induction args with
  | nil => intro k; rfl
  | cons a rest ih =>
      intro k
      simp only [unparseKwArgsLoop]
      rw [unparse_arg_isSome_congr a _ _ (h k), ih]

theorem mapsome_get_isSome (ds : List Expr) :
    ∀ i, (((ds.map some).get? i).getD none).isSome = decide (i < ds.length) := by
  induction ds with
  | nil => intro i; cases i <;> rfl
  | cons d rest ih =>
      intro i
      cases i with
      | zero => simp
      | succ j =>
          simp only [List.map_cons, List.get?_cons_succ, List.length_cons, ih j]
          simp only [Nat.succ_lt_succ_iff]

theorem replicate_mapsome_isSome_congr (n : Nat) (ds es : List Expr)
    (hlen : ds.length = es.length) :
    ∀ i, (((List.replicate n (none : Option Expr) ++ ds.map some).get? i).getD none).isSome =
      (((List.replicate n (none : Option Expr) ++ es.map some).get? i).getD none).isSome := by
  induction n with
  | zero =>
      intro i
      simp only [List.replicate, List.nil_append]
      rw [mapsome_get_isSome, mapsome_get_isSome, hlen]
  | succ m ih =>
      intro i
      cases i with
      | zero => rfl
      | succ j =>
          simp only [List.replicate_succ, List.cons_append, List.get?_cons_succ]
          exact ih j

theorem alignedDefaults_isSome (t : Nat) (ds es : List Expr)
    (hlen : ds.length = es.length) (i : Nat) :
    (((alignedDefaults t ds).get? i).getD none).isSome =
      (((alignedDefaults t es).get? i).getD none).isSome := by
  unfold alignedDefaults
  rw [hlen]
  exact replicate_mapsome_isSome_congr (t - es.length) ds es hlen i

/-- C4 amended: the rendered parameter list is the `", "`-join of:
positional-only parameters plus a literal `/` (when any), positional parameters,
a `*`-vararg or bare `*` marker (the latter only before keyword-only
parameters), keyword-only parameters, then a `**` kwarg marker; every parameter
that has a default in the source is rendered with the placeholder `" = ..."`,
and the output is entirely independent of what the default expressions are —
they are never reproduced.  The example signature renders as
`a, b = ..., *, c, d = ..., **e`. -/
theorem unparse_arguments_structure :
    (∀ A : Arguments,
      unparse_arguments A = pyJoin (", ")
        ((if A.posonlyargs.isEmpty then []
          else unparseArgsLoop
            (alignedDefaults (A.posonlyargs.length + A.args.length) A.defaults)
            0 A.posonlyargs ++ ["/"]) ++
          unparseArgsLoop
            (alignedDefaults (A.posonlyargs.length + A.args.length) A.defaults)
            A.posonlyargs.length A.args ++
          (match A.vararg with
            | some v => ["*" ++ unparse_arg v none false]
            | none => if A.kwonlyargs.isEmpty then [] else ["*"]) ++
          unparseKwArgsLoop A.kw_defaults 0 A.kwonlyargs ++
          (match A.kwarg with
            | some k => ["**" ++ unparse_arg k none false]
            | none => []))) ∧
    (∀ (a : Arg) (v : Expr),
      unparse_arg a (some v) false = unparse_arg a none false ++ " = ...") ∧
    (∀ (A : Arguments) (ds : List Expr) (kds : List (Option Expr)),
      ds.length = A.defaults.length →
      (∀ i, ((kds.get? i).getD none).isSome =
        ((A.kw_defaults.get? i).getD none).isSome) →
      unparse_arguments
          ⟨A.posonlyargs, A.args, A.vararg, A.kwonlyargs, kds, A.kwarg, ds⟩ =
        unparse_arguments A) := by
  refine ⟨fun A => rfl, unparse_arg_some_placeholder, ?_⟩
  intro A ds kds hlen hkds
  simp only [unparse_arguments]
  rw [unparseArgsLoop_congr A.posonlyargs _ _ (alignedDefaults_isSome _ ds A.defaults hlen),
    unparseArgsLoop_congr A.args _ _ (alignedDefaults_isSome _ ds A.defaults hlen),
    unparseKwArgsLoop_congr A.kwonlyargs _ _ hkds]

theorem unparse_arguments_structure_witness :
    unparse_arguments
        ⟨[], [⟨"a", none⟩, ⟨"b", none⟩], none, [⟨"c", none⟩, ⟨"d", none⟩],
          [none, some Expr.EllipsisConst], some ⟨"e", none⟩,
          [Expr.Name ("huge_default")]⟩ =
      unparse_arguments exampleArguments :=
  unparse_arguments_structure.2.2 exampleArguments [Expr.Name ("huge_default")]
    [none, some Expr.EllipsisConst] rfl
    (fun i => match i with
      | 0 => rfl
      | 1 => rfl
      | _ + 2 => rfl)

/-- The Boolean test for the tuple-slice shape of a subscript. -/
def isTupleExpr : Expr → Bool
  | Expr.Tuple _ => true
  | _ => false

mutual

/-- The annotation-rewriting structure exactly as claim C5 words it (compared
against `unparse_type_expr`, which is translated from the code): recursion into
every argument of a subscripted generic, except that the first argument under a
`Literal` subscript and the arguments after the first under an `Annotated`
subscript are left untouched; tuples and lists rewritten elementwise, both union
sides rewritten, all remaining cases as in the code. -/
def unparse_type_expr_claimed : Expr → String
  | Expr.Subscript v slc =>
      let pre := unparseExpr v
      (match slc with
        | Expr.Tuple es =>
            pre ++ "[" ++ pyJoin (", ") (unparseTypeExprClaimedArgs pre 0 es) ++ "]"
        | s =>
            pre ++ "[" ++
              (if pre == "Literal" then unparseExpr s else unparse_type_expr_claimed s) ++
              "]")
  | Expr.Tuple es => "(" ++ pyJoin (", ") (unparseTypeExprClaimedList es) ++ ")"
  | Expr.ListE es => "[" ++ pyJoin (", ") (unparseTypeExprClaimedList es) ++ "]"
  | Expr.BinOpOr l r =>
      unparse_type_expr_claimed l ++ " | " ++ unparse_type_expr_claimed r
  | Expr.StrConst s =>
      match parse_expr s with
      | Except.ok e => unparseExpr e
      | Except.error _ => unparseExpr (Expr.StrConst s)
  | e => unparseExpr e

def unparseTypeExprClaimedArgs (pre : String) (i : Nat) : List Expr → List String
  | [] => []
  | a :: rest =>
      (if (i == 0 && pre == "Literal") || (0 < i && pre == "Annotated") then unparseExpr a
        else unparse_type_expr_claimed a) ::
        unparseTypeExprClaimedArgs pre (i + 1) rest

def unparseTypeExprClaimedList : List Expr → List String
  | [] => []
  | a :: rest => unparse_type_expr_claimed a :: unparseTypeExprClaimedList rest

end

/-- `Literal[1, "int"]`. -/
def literalExample : Expr :=
  Expr.Subscript (Expr.Name ("Literal"))
    (Expr.Tuple [Expr.IntConst 1, Expr.StrConst ("int")])

/-- C5 counterexample: on `Literal[1, "int"]` the code emits the whole subscript
verbatim from the original source (`Literal[1, 'int']` — every argument
untouched), while the rewriting structure as the claim words it would leave only
the first argument untouched and rewrite the string `"int"` into an unquoted
`int`. -/
theorem unparse_type_expr_literal_counterexample :
    unparse_type_expr literalExample = "Literal[1, 'int']" ∧
    unparse_type_expr_claimed literalExample = "Literal[1, int]" ∧
    unparse_type_expr literalExample ≠ unparse_type_expr_claimed literalExample :=
  ⟨rfl, rfl, by decide⟩

/-- C5 amended: a subscript whose unparsed value is `Literal` is emitted in its
entirety from the original source — no argument is rewritten; under any other
prefix the arguments are rewritten recursively, except that arguments after the
first under `Annotated` are only canonically unparsed; tuples and lists of
types are rewritten elementwise, and a union `A | B` has both sides rewritten. -/
theorem unparse_type_expr_structure :
    (∀ v slc, unparseExpr v = "Literal" →
      unparse_type_expr (Expr.Subscript v slc) =
        unparse_original_source_expr (Expr.Subscript v slc)) ∧
    (∀ v es, unparseExpr v ≠ "Literal" →
      unparse_type_expr (Expr.Subscript v (Expr.Tuple es)) =
        unparseExpr v ++ "[" ++
          pyJoin (", ") (unparseTypeExprArgs (unparseExpr v) 0 es) ++ "]") ∧
    (∀ v s, unparseExpr v ≠ "Literal" → isTupleExpr s = false →
      unparse_type_expr (Expr.Subscript v s) =
        unparseExpr v ++ "[" ++ unparse_type_expr s ++ "]") ∧
    (∀ pre i a rest, unparseTypeExprArgs pre i (a :: rest) =
      (if 0 < i ∧ pre = "Annotated" then unparseExpr a else unparse_type_expr a) ::
        unparseTypeExprArgs pre (i + 1) rest) ∧
    (∀ a rest, unparseTypeExprList (a :: rest) =
      unparse_type_expr a :: unparseTypeExprList rest) ∧
    (∀ es, unparse_type_expr (Expr.Tuple es) =
      "(" ++ pyJoin (", ") (unparseTypeExprList es) ++ ")") ∧
    (∀ es, unparse_type_expr (Expr.ListE es) =
      "[" ++ pyJoin (", ") (unparseTypeExprList es) ++ "]") ∧
    (∀ l r, unparse_type_expr (Expr.BinOpOr l r) =
      unparse_type_expr l ++ " | " ++ unparse_type_expr r) := by
  refine ⟨?_, ?_, ?_, ?_, fun a rest => rfl, fun es => rfl, fun es => rfl,
    fun l r => rfl⟩
  · intro v slc h
    have hb : (unparseExpr v == "Literal") = true := by simpa [beq_iff_eq] using h
    conv_lhs => rw [unparse_type_expr.eq_def]
    simp [hb]
  · intro v es h
    have hb : (unparseExpr v == "Literal") = false := by simpa [beq_iff_eq] using h
    conv_lhs => rw [unparse_type_expr.eq_def]
    simp [hb]
  · intro v s h hnt
    have hb : (unparseExpr v == "Literal") = false := by simpa [beq_iff_eq] using h
    cases s with
    | Tuple es => simp [isTupleExpr] at hnt
    | Name id =>
        conv_lhs => rw [unparse_type_expr.eq_def]
        simp [hb]
    | Attribute a b =>
        conv_lhs => rw [unparse_type_expr.eq_def]
        simp [hb]
    | Subscript a b =>
        conv_lhs => rw [unparse_type_expr.eq_def]
        simp [hb]
    | ListE es =>
        conv_lhs => rw [unparse_type_expr.eq_def]
        simp [hb]
    | BinOpOr l r =>
        conv_lhs => rw [unparse_type_expr.eq_def]
        simp [hb]
    | StrConst str =>
        conv_lhs => rw [unparse_type_expr.eq_def]
        simp [hb]
    | IntConst n =>
        conv_lhs => rw [unparse_type_expr.eq_def]
        simp [hb]
    | EllipsisConst =>
        conv_lhs => rw [unparse_type_expr.eq_def]
        simp [hb]
  · intro pre i a rest
    by_cases h1 : 0 < i
    · by_cases h2 : pre = "Annotated"
      · simp [unparseTypeExprArgs, h1, h2]
      · simp [unparseTypeExprArgs, h1, h2]
    · by_cases h2 : pre = "Annotated"
      · simp [unparseTypeExprArgs, h1, h2]
      · simp [unparseTypeExprArgs, h1, h2]

theorem unparse_type_expr_structure_witness :
    unparse_type_expr (Expr.Subscript (Expr.Name ("Literal"))
        (Expr.Tuple [Expr.StrConst ("a")])) = "Literal['a']" ∧
    unparse_type_expr (Expr.Subscript (Expr.Name ("Annotated"))
        (Expr.Tuple [Expr.StrConst ("int"), Expr.StrConst ("tag")])) =
      "Annotated[int, 'tag']" :=
  ⟨((unparse_type_expr_structure.1 (Expr.Name ("Literal"))
      (Expr.Tuple [Expr.StrConst ("a")])) rfl).trans rfl,
    ((unparse_type_expr_structure.2.1 (Expr.Name ("Annotated"))
      [Expr.StrConst ("int"), Expr.StrConst ("tag")]) (by decide)).trans rfl⟩

end Dubstub
